import Mathlib

/-!
Shallow embedding of the falling-sand simulator (`src/main.rs`) and proofs
about its per-tick update rule, emitter control, and event handling.

The grid is the `Array2D<(bool, bool)>` of the source: each cell is a pair
`(occupied, moved_this_tick)`.  Following the `array2d` crate, the grid is
a flat row-major vector together with its dimensions; `column_len()` is
the number of rows, `row_len()` the number of columns, and element
`(row, col)` lives at flat index `row * row_len + col`.  The per-tick
simulation loop of the source is::

    for row in 0..grid.column_len() {
        for col in 0..grid.row_len() {
            let (curr, down, left, right) = ( ...bounds-checked reads... );
            match (curr, down, left, right) { ...decision table... }
        }
    }
    for row ... { for col ... { grid[(row, col)].1 = false; } }

Randomness (the `choose` of rule 3) is modelled by a caller-supplied
function `choice : Nat → Nat → Bool` giving the draw at each scan position
(`true` picks `col - 1`, `false` picks `col + 1`); within one pass every
position is visited at most once, so this covers exactly the behaviours of
the sequential RNG.
-/

set_option maxRecDepth 100000

namespace FallingSand

/-- Cell of the grid: `(occupied, moved_this_tick)`, the `(bool, bool)`
element type of the source's `Array2D`. -/
abbrev Cell := Bool × Bool

/-- The grid, mirroring `array2d::Array2D`: flat row-major storage plus
dimensions.  `numRows` is `column_len()`, `numCols` is `row_len()`. -/
structure Array2D where
  numRows : Nat
  numCols : Nat
  data : List Cell
deriving DecidableEq, Repr

/-- Flat index of `(row, col)` when in bounds, mirroring the crate's
internal `get_index`: `Some(row * row_len + col)` iff both coordinates are
within the extents. -/
def getIndex (g : Array2D) (r c : Nat) : Option Nat :=
  if r < g.numRows ∧ c < g.numCols then some (r * g.numCols + c) else none

/-- Bounds-checked read, mirroring `grid.get(row, col)`: `none` exactly
when the coordinate is out of bounds. -/
def getCell (g : Array2D) (r c : Nat) : Option Cell :=
  (getIndex g r c).bind fun i => g.data[i]?

/-- Write of cell `(r, c)`, as performed by the source's in-bounds
`grid[(row, col)] = v` assignments (`List.set` leaves the grid unchanged
on an out-of-range flat index; all writes of the update pass are proved
in-bounds, see the checked variant below). -/
def setCell (g : Array2D) (r c : Nat) (v : Cell) : Array2D :=
  { g with data := g.data.set (r * g.numCols + c) v }

/-- Construction `Array2D::filled_with(v, rows, cols)` used at startup. -/
def filledWith (v : Cell) (rows cols : Nat) : Array2D :=
  ⟨rows, cols, List.replicate (rows * cols) v⟩

/-- One evaluation of the per-cell decision table at scan position
`(r, c)`, together with the list of movement targets it writes (the cell
receiving `(true, true)` in rules 2-5; empty for the spawn rule and the
default arm).  The grid component mirrors the source's
`match (curr, down, left, right)` arm for arm: rule 1 (spawn), rule 2
(straight down), rule 3 (random diagonal), rule 4 (slide right-down),
rule 5 (slide left-down), default.  In the source each guard failure falls
through to the default arm because no later pattern can match the same
scrutinees, so guards are embedded as `if` inside the arm with `else`
returning the unchanged grid. -/
def stepFull (s : Option (Nat × Nat)) (choice : Nat → Nat → Bool)
    (g : Array2D) (r c : Nat) : Array2D × List (Nat × Nat) :=
  match getCell g r c, getCell g (r + 1) c,
      (if 0 < c then getCell g (r + 1) (c - 1) else none),
      getCell g (r + 1) (c + 1) with
  | some (false, false), _, _, _ =>
      (if s = some (r, c) then setCell g r c (true, true) else g, [])
  | some (true, false), some (false, _), _, _ =>
      if r < g.numRows - 3 then
        (setCell (setCell g r c (false, true)) (r + 1) c (true, true), [(r + 1, c)])
      else (g, [])
  | some (true, _), some (true, _), some (false, _), some (false, _) =>
      if r < g.numRows - 3 then
        (setCell (setCell g r c (false, true)) (r + 1)
            (if choice r c then c - 1 else c + 1) (true, true),
          [(r + 1, if choice r c then c - 1 else c + 1)])
      else (g, [])
  | some (true, _), some (true, _), some (true, _), some (false, _) =>
      if r < g.numRows - 3 then
        (setCell (setCell g r c (false, true)) (r + 1) (c + 1) (true, true),
          [(r + 1, c + 1)])
      else (g, [])
  | some (true, _), some (true, _), some (false, _), some (true, _) =>
      if r < g.numRows - 3 then
        (setCell (setCell g r c (false, true)) (r + 1) (c - 1) (true, true),
          [(r + 1, c - 1)])
      else (g, [])
  | _, _, _, _ => (g, [])

/-- Grid after one evaluation of the decision table at `(r, c)`. -/
def step (s : Option (Nat × Nat)) (choice : Nat → Nat → Bool)
    (g : Array2D) (r c : Nat) : Array2D :=
  (stepFull s choice g r c).1

/-- Movement targets written by the decision table at `(r, c)`. -/
def stepTargets (s : Option (Nat × Nat)) (choice : Nat → Nat → Bool)
    (g : Array2D) (r c : Nat) : List (Nat × Nat) :=
  (stepFull s choice g r c).2

/-- Inner loop `for col in cs { ... }` of the update pass, scanning row `r`. -/
def rowScan (s : Option (Nat × Nat)) (choice : Nat → Nat → Bool)
    (r : Nat) (g : Array2D) (cs : List Nat) : Array2D :=
  cs.foldl (fun g c => step s choice g r c) g

/-- Outer loop `for row in rs { ... }` of the update pass; `C` is the
column count `row_len()`, invariant across the pass. -/
def updatePassAux (s : Option (Nat × Nat)) (choice : Nat → Nat → Bool)
    (C : Nat) (g : Array2D) (rs : List Nat) : Array2D :=
  rs.foldl (fun g r => rowScan s choice r g (List.range C)) g

/-- Full update pass: the nested row-major scan of the decision table over
every cell, `for row in 0..column_len() { for col in 0..row_len() }`. -/
def updatePass (s : Option (Nat × Nat)) (choice : Nat → Nat → Bool)
    (g : Array2D) : Array2D :=
  updatePassAux s choice g.numCols g (List.range g.numRows)

/-- Current cell value at an in-bounds coordinate (defaulting for
out-of-bounds reads, which the callers never perform). -/
def cellAt (g : Array2D) (r c : Nat) : Cell :=
  (getCell g r c).getD (false, false)

/-- Mark-clearing loop run after the scan:
`for row ... for col ... { grid[(row, col)].1 = false; }`. -/
def clearMarks (g : Array2D) : Array2D :=
  (List.range g.numRows).foldl
    (fun h r =>
      (List.range g.numCols).foldl
        (fun h c => setCell h r c ((cellAt h r c).1, false)) h)
    g

/-- One simulation tick of the grid: the full update pass followed by the
mark-clearing loop. -/
def tick (s : Option (Nat × Nat)) (choice : Nat → Nat → Bool)
    (g : Array2D) : Array2D :=
  clearMarks (updatePass s choice g)

/-- Occupancy of a cell as a Boolean (`false` out of bounds). -/
def isOcc (g : Array2D) (r c : Nat) : Bool :=
  match getCell g r c with
  | some x => x.1
  | none => false

/-- Number of occupied cells of the grid. -/
def countOcc (g : Array2D) : Nat :=
  g.data.countP fun x => x.1

/-- Spawn condition of rule 1 as evaluated at scan position `(r, c)` on
the current grid: the cell reads back `(false, false)` and is the emitter
target. -/
def spawnsAt (s : Option (Nat × Nat)) (g : Array2D) (r c : Nat) : Bool :=
  (getCell g r c == some (false, false)) && (s == some (r, c))

/-- Grid state at the moment the row-major scan reaches position `p`:
all rows before `p.1` fully processed, then the columns of row `p.1`
before `p.2`. -/
def gridAtVisit (s : Option (Nat × Nat)) (choice : Nat → Nat → Bool)
    (g : Array2D) (p : Nat × Nat) : Array2D :=
  rowScan s choice p.1 (updatePassAux s choice g.numCols g (List.range p.1))
    (List.range p.2)

/-- Whether the spawn rule fires during the pass: the emitter is active at
an in-bounds cell that reads `(false, false)` at the moment the scan
reaches it. -/
def spawnFires (s : Option (Nat × Nat)) (choice : Nat → Nat → Bool)
    (g : Array2D) : Bool :=
  match s with
  | none => false
  | some p => getCell (gridAtVisit s choice g p) p.1 p.2 == some (false, false)

/-- Movement targets written while scanning row `r` over columns `cs`. -/
def rowTargets (s : Option (Nat × Nat)) (choice : Nat → Nat → Bool)
    (r : Nat) : Array2D → List Nat → List (Nat × Nat)
  | _, [] => []
  | g, c :: cs =>
      stepTargets s choice g r c ++
        rowTargets s choice r (step s choice g r c) cs

/-- Movement targets written while scanning the rows `rs` of the pass. -/
def passTargetsAux (s : Option (Nat × Nat)) (choice : Nat → Nat → Bool)
    (C : Nat) : Array2D → List Nat → List (Nat × Nat)
  | _, [] => []
  | g, r :: rs =>
      rowTargets s choice r g (List.range C) ++
        passTargetsAux s choice C (rowScan s choice r g (List.range C)) rs

/-- Movement targets written by one full update pass, in write order. -/
def updatePassTargets (s : Option (Nat × Nat)) (choice : Nat → Nat → Bool)
    (g : Array2D) : List (Nat × Nat) :=
  passTargetsAux s choice g.numCols g (List.range g.numRows)

/-- Checked write, mirroring the panicking `grid[(row, col)] = v` index
assignment of the source: the flat index is computed by the bounds-checked
`get_index`, and an out-of-bounds coordinate is a failure (`none`). -/
def setCellChecked (g : Array2D) (r c : Nat) (v : Cell) : Option Array2D :=
  (getIndex g r c).map fun i => { g with data := g.data.set i v }

/-- Checked `usize` decrement, mirroring the `col - 1` computations of
rules 3 and 5 (underflow at `col = 0` is a failure). -/
def checkedPred (c : Nat) : Option Nat :=
  if 0 < c then some (c - 1) else none

/-- Decision table with every grid write and every `col - 1` computation
checked: a failure (`none`) would correspond to an out-of-bounds panic of
the source.  The structure matches `stepFull` arm for arm. -/
def stepChecked (s : Option (Nat × Nat)) (choice : Nat → Nat → Bool)
    (g : Array2D) (r c : Nat) : Option Array2D :=
  match getCell g r c, getCell g (r + 1) c,
      (if 0 < c then getCell g (r + 1) (c - 1) else none),
      getCell g (r + 1) (c + 1) with
  | some (false, false), _, _, _ =>
      if s = some (r, c) then setCellChecked g r c (true, true) else some g
  | some (true, false), some (false, _), _, _ =>
      if r < g.numRows - 3 then
        (setCellChecked g r c (false, true)).bind fun g1 =>
          setCellChecked g1 (r + 1) c (true, true)
      else some g
  | some (true, _), some (true, _), some (false, _), some (false, _) =>
      if r < g.numRows - 3 then
        (setCellChecked g r c (false, true)).bind fun g1 =>
          (checkedPred c).bind fun cl =>
            setCellChecked g1 (r + 1) (if choice r c then cl else c + 1) (true, true)
      else some g
  | some (true, _), some (true, _), some (true, _), some (false, _) =>
      if r < g.numRows - 3 then
        (setCellChecked g r c (false, true)).bind fun g1 =>
          setCellChecked g1 (r + 1) (c + 1) (true, true)
      else some g
  | some (true, _), some (true, _), some (false, _), some (true, _) =>
      if r < g.numRows - 3 then
        (setCellChecked g r c (false, true)).bind fun g1 =>
          (checkedPred c).bind fun cl =>
            setCellChecked g1 (r + 1) cl (true, true)
      else some g
  | _, _, _, _ => some g

/-- Checked inner loop of the update pass. -/
def rowScanChecked (s : Option (Nat × Nat)) (choice : Nat → Nat → Bool)
    (r : Nat) : Array2D → List Nat → Option Array2D
  | g, [] => some g
  | g, c :: cs =>
      (stepChecked s choice g r c).bind fun g1 => rowScanChecked s choice r g1 cs

/-- Checked outer loop of the update pass. -/
def updatePassAuxChecked (s : Option (Nat × Nat)) (choice : Nat → Nat → Bool)
    (C : Nat) : Array2D → List Nat → Option Array2D
  | g, [] => some g
  | g, r :: rs =>
      (rowScanChecked s choice r g (List.range C)).bind fun g1 =>
        updatePassAuxChecked s choice C g1 rs

/-- Full update pass with every grid write checked. -/
def updatePassChecked (s : Option (Nat × Nat)) (choice : Nat → Nat → Bool)
    (g : Array2D) : Option Array2D :=
  updatePassAuxChecked s choice g.numCols g (List.range g.numRows)

/-- Signals consumed by the tick scheduler, the `enum Signal` of the
source (`Break` is the quit signal sent on Ctrl+C). -/
inductive Signal where
  | Click (r c : Nat)
  | Moved (r c : Nat)
  | Resize (w h : Nat)
  | Break
deriving DecidableEq, Repr

/-- Outcome of the per-tick event drain: continue with the (possibly
updated) emitter, leave the simulation loop (`break 'main`), or hit the
unimplemented-path panic (`todo!()`) of the `Resize` arm. -/
inductive DrainOutcome where
  | cont (s : Option (Nat × Nat))
  | quit
  | panicked
deriving DecidableEq, Repr

/-- Event drain of one tick, mirroring the
`while let Some(event) = events.next() { match event { ... } }` loop:
`Click` toggles the emitter (activating at the click coordinate only when
none is active), `Moved` relocates it only when active, `Resize` reaches
`todo!()`, and `Break` leaves the simulation loop at once. -/
def drainEvents : List Signal → Option (Nat × Nat) → DrainOutcome
  | [], s => .cont s
  | .Click r c :: rest, s =>
      drainEvents rest (if s = none then some (r, c) else none)
  | .Moved r c :: rest, s => drainEvents rest (s.map fun _ => (r, c))
  | .Resize _ _ :: _, _ => .panicked
  | .Break :: _, _ => .quit

/-- Signals yielded by `event_rx.try_iter()` given the queue contents and
whether the producer has disconnected.  Models
`std::sync::mpsc::Receiver::try_iter`, whose iterator yields the queued
values and simply ends both on an empty queue and on a disconnected
producer, exposing no distinction between the two. -/
def tryIterSignals (buffered : List Signal) (producerDisconnected : Bool) :
    List Signal :=
  buffered

/-- State of the simulation loop after one event drain. -/
inductive SimState where
  | Running (s : Option (Nat × Nat))
  | Stopped
  | Panicked
deriving DecidableEq, Repr

/-- Simulation-loop state after draining the event channel at the start of
a tick, starting from a running loop with emitter `s`. -/
def tickEventOutcome (buffered : List Signal) (producerDisconnected : Bool)
    (s : Option (Nat × Nat)) : SimState :=
  match drainEvents (tryIterSignals buffered producerDisconnected) s with
  | .cont s1 => .Running s1
  | .quit => .Stopped
  | .panicked => .Panicked

/-- Choice function used for concrete runs (rule 3 never fires in them, so
the value is irrelevant). -/
def chTrue : Nat → Nat → Bool := fun _ _ => true

/-- Empty starting grid of the given dimensions, as built at startup by
`Array2D::filled_with((false, false), height, width)`. -/
def emptyGrid (rows cols : Nat) : Array2D :=
  filledWith (false, false) rows cols

/-! ### Basic facts about the grid primitives -/

/-- Row-major flat indices of in-bounds coordinates are injective. -/
lemma flatIndex_inj {C r1 c1 r2 c2 : Nat} (h1 : c1 < C) (h2 : c2 < C)
    (h : r1 * C + c1 = r2 * C + c2) : r1 = r2 ∧ c1 = c2 := by
  have hC : 0 < C := Nat.lt_of_le_of_lt (Nat.zero_le c1) h1
  have e1 : (C * r1 + c1) / C = r1 := by
    rw [Nat.mul_add_div hC, Nat.div_eq_of_lt h1, Nat.add_zero]
  have e2 : (C * r2 + c2) / C = r2 := by
    rw [Nat.mul_add_div hC, Nat.div_eq_of_lt h2, Nat.add_zero]
  have m1 : (C * r1 + c1) % C = c1 := by rw [Nat.mul_add_mod, Nat.mod_eq_of_lt h1]
  have m2 : (C * r2 + c2) % C = c2 := by rw [Nat.mul_add_mod, Nat.mod_eq_of_lt h2]
  rw [Nat.mul_comm r1 C, Nat.mul_comm r2 C] at h
  constructor
  · rw [← e1, ← e2, h]
  · rw [← m1, ← m2, h]

lemma getCell_some {g : Array2D} {r c : Nat} {v : Cell}
    (h : getCell g r c = some v) :
    r < g.numRows ∧ c < g.numCols ∧ g.data[r * g.numCols + c]? = some v := by
  unfold getCell getIndex at h
  by_cases hb : r < g.numRows ∧ c < g.numCols
  · rw [if_pos hb] at h
    exact ⟨hb.1, hb.2, h⟩
  · rw [if_neg hb] at h
    exact absurd h (by simp)

lemma getCell_of_bounds {g : Array2D} {r c : Nat}
    (hr : r < g.numRows) (hc : c < g.numCols) :
    getCell g r c = g.data[r * g.numCols + c]? := by
  unfold getCell getIndex
  rw [if_pos ⟨hr, hc⟩]
  rfl

@[simp] lemma setCell_numRows (g : Array2D) (r c : Nat) (v : Cell) :
    (setCell g r c v).numRows = g.numRows := rfl

@[simp] lemma setCell_numCols (g : Array2D) (r c : Nat) (v : Cell) :
    (setCell g r c v).numCols = g.numCols := rfl

/-- Reading back a just-written in-bounds cell. -/
lemma getCell_setCell_self {g : Array2D} {r c : Nat} {w : Cell} (v : Cell)
    (h : getCell g r c = some w) :
    getCell (setCell g r c v) r c = some v := by
  obtain ⟨hr, hc, hd⟩ := getCell_some h
  obtain ⟨hlt, -⟩ := List.getElem?_eq_some.1 hd
  rw [getCell_of_bounds (g := setCell g r c v) hr hc]
  show (g.data.set (r * g.numCols + c) v)[r * g.numCols + c]? = some v
  exact List.getElem?_set_eq_of_lt v (by simpa using hlt)

/-- Writing one in-bounds cell does not change any other cell. -/
lemma getCell_setCell_ne {g : Array2D} {r c r' c' : Nat} (v : Cell)
    (hc : c < g.numCols) (hne : (r, c) ≠ (r', c')) :
    getCell (setCell g r c v) r' c' = getCell g r' c' := by
  by_cases hb : r' < g.numRows ∧ c' < g.numCols
  · rw [getCell_of_bounds (g := setCell g r c v) hb.1 hb.2,
      getCell_of_bounds hb.1 hb.2]
    show (g.data.set (r * g.numCols + c) v)[r' * g.numCols + c']? = _
    refine List.getElem?_set_ne ?_
    intro hidx
    exact hne (by
      obtain ⟨h1, h2⟩ := flatIndex_inj hc hb.2 hidx
      rw [h1, h2])
  · unfold getCell getIndex
    rw [if_neg (by simpa using hb), if_neg (by simpa using hb)]
    rfl

lemma isOcc_eq_true {g : Array2D} {r c : Nat} (h : isOcc g r c = true) :
    ∃ m, getCell g r c = some (true, m) := by
  unfold isOcc at h
  rcases hg : getCell g r c with - | x
  · rw [hg] at h; exact absurd h (by simp)
  · rw [hg] at h
    exact ⟨x.2, by rw [← h]⟩

/-- Additive form of the occupied-cell count after one in-bounds write. -/
lemma countOcc_setCell {g : Array2D} {r c : Nat} {w : Cell} (v : Cell)
    (h : getCell g r c = some w) :
    countOcc (setCell g r c v) + (if w.1 then 1 else 0) =
      countOcc g + (if v.1 then 1 else 0) := by
  obtain ⟨-, -, hd⟩ := getCell_some h
  obtain ⟨hlt, hval⟩ := List.getElem?_eq_some.1 hd
  unfold countOcc setCell
  rw [List.countP_set (p := fun x : Cell => x.1) g.data (r * g.numCols + c) v hlt]
  rw [hval]
  rcases hw : w.1 with - | -
  · simp [hw]
  · have hpos : 0 < g.data.countP (fun x : Cell => x.1) :=
      List.countP_pos_iff.2 ⟨w, by rw [← hval]; exact List.getElem_mem hlt, hw⟩
    simp only [hw, if_true]
    omega

lemma ne_pair_next_row (r c c' : Nat) : ((r, c) : Nat × Nat) ≠ (r + 1, c') := by
  intro h
  have : r = r + 1 := congrArg Prod.fst h
  omega

lemma spawnsAt_of {s : Option (Nat × Nat)} {g : Array2D} {r c : Nat}
    (heq : getCell g r c = some (false, false)) (hs : s = some (r, c)) :
    spawnsAt s g r c = true := by
  unfold spawnsAt
  rw [heq, hs, beq_self_eq_true, beq_self_eq_true]
  rfl

lemma spawnsAt_ne_spawner {s : Option (Nat × Nat)} {g : Array2D} {r c : Nat}
    (hs : ¬ s = some (r, c)) : spawnsAt s g r c = false := by
  unfold spawnsAt
  rw [beq_eq_false_iff_ne.2 hs, Bool.and_false]

lemma spawnsAt_not_empty {s : Option (Nat × Nat)} {g : Array2D} {r c : Nat}
    (h : ¬ getCell g r c = some (false, false)) : spawnsAt s g r c = false := by
  unfold spawnsAt
  rw [beq_eq_false_iff_ne.2 h, Bool.false_and]

lemma spawnsAt_occ {s : Option (Nat × Nat)} {g : Array2D} {r c : Nat} {m : Bool}
    (heq : getCell g r c = some (true, m)) : spawnsAt s g r c = false := by
  refine spawnsAt_not_empty ?_
  rw [heq]
  intro h
  have := Option.some.inj h
  exact Bool.noConfusion (congrArg Prod.fst this)

lemma step_numRows (s : Option (Nat × Nat)) (ch : Nat → Nat → Bool)
    (g : Array2D) (r c : Nat) : (step s ch g r c).numRows = g.numRows := by
  unfold step stepFull
  split <;> first | rfl | (split <;> rfl)

lemma step_numCols (s : Option (Nat × Nat)) (ch : Nat → Nat → Bool)
    (g : Array2D) (r c : Nat) : (step s ch g r c).numCols = g.numCols := by
  unfold step stepFull
  split <;> first | rfl | (split <;> rfl)

/-- The decision table conserves the occupied-cell count except for a
spawn, which adds exactly one particle. -/
lemma countOcc_step (s : Option (Nat × Nat)) (ch : Nat → Nat → Bool)
    (g : Array2D) (r c : Nat) :
    countOcc (step s ch g r c) =
      countOcc g + (if spawnsAt s g r c then 1 else 0) := by
  unfold step stepFull
  split
  · rename_i heq
    by_cases hs : s = some (r, c)
    · rw [spawnsAt_of heq hs]
      have h1 := countOcc_setCell (true, true) heq
      simp at h1 ⊢
      show countOcc (if s = some (r, c) then setCell g r c (true, true) else g) = _
      rw [if_pos hs]
      omega
    · rw [spawnsAt_ne_spawner hs]
      show countOcc (if s = some (r, c) then setCell g r c (true, true) else g) = _
      rw [if_neg hs]
      simp
  · rename_i m heq1 heq2
    rw [spawnsAt_occ heq1]
    show countOcc
        (if r < g.numRows - 3 then
            (setCell (setCell g r c (false, true)) (r + 1) c (true, true), [(r + 1, c)])
          else (g, [])).1 = _
    split
    · have hc : c < g.numCols := (getCell_some heq1).2.1
      have h1 := countOcc_setCell (false, true) heq1
      have hget1 : getCell (setCell g r c (false, true)) (r + 1) c = some (false, m) := by
        rw [getCell_setCell_ne _ hc (ne_pair_next_row r c c)]
        exact heq2
      have h2 := countOcc_setCell (true, true) hget1
      simp at h1 h2 ⊢
      omega
    · simp
  · rename_i m1 m2 m3 m4 heq1 heq2 heq3 heq4
    rw [spawnsAt_occ heq1]
    show countOcc
        (if r < g.numRows - 3 then
            (setCell (setCell g r c (false, true)) (r + 1)
                (if ch r c then c - 1 else c + 1) (true, true),
              [(r + 1, if ch r c then c - 1 else c + 1)])
          else (g, [])).1 = _
    split
    · have hc : c < g.numCols := (getCell_some heq1).2.1
      have h1 := countOcc_setCell (false, true) heq1
      by_cases hcpos : 0 < c
      · rw [if_pos hcpos] at heq3
        by_cases hch : ch r c
        · rw [if_pos hch]
          have hget1 : getCell (setCell g r c (false, true)) (r + 1) (c - 1) =
              some (false, m3) := by
            rw [getCell_setCell_ne _ hc (ne_pair_next_row r c (c - 1))]
            exact heq3
          have h2 := countOcc_setCell (true, true) hget1
          simp at h1 h2 ⊢
          omega
        · rw [if_neg hch]
          have hget1 : getCell (setCell g r c (false, true)) (r + 1) (c + 1) =
              some (false, m4) := by
            rw [getCell_setCell_ne _ hc (ne_pair_next_row r c (c + 1))]
            exact heq4
          have h2 := countOcc_setCell (true, true) hget1
          simp at h1 h2 ⊢
          omega
      · rw [if_neg hcpos] at heq3
        exact absurd heq3 (by simp)
    · simp
  · rename_i m1 m2 m3 m4 heq1 heq2 heq3 heq4
    rw [spawnsAt_occ heq1]
    show countOcc
        (if r < g.numRows - 3 then
            (setCell (setCell g r c (false, true)) (r + 1) (c + 1) (true, true),
              [(r + 1, c + 1)])
          else (g, [])).1 = _
    split
    · have hc : c < g.numCols := (getCell_some heq1).2.1
      have h1 := countOcc_setCell (false, true) heq1
      have hget1 : getCell (setCell g r c (false, true)) (r + 1) (c + 1) =
          some (false, m4) := by
        rw [getCell_setCell_ne _ hc (ne_pair_next_row r c (c + 1))]
        exact heq4
      have h2 := countOcc_setCell (true, true) hget1
      simp at h1 h2 ⊢
      omega
    · simp
  · rename_i m1 m2 m3 m4 heq1 heq2 heq3 heq4
    rw [spawnsAt_occ heq1]
    show countOcc
        (if r < g.numRows - 3 then
            (setCell (setCell g r c (false, true)) (r + 1) (c - 1) (true, true),
              [(r + 1, c - 1)])
          else (g, [])).1 = _
    split
    · have hc : c < g.numCols := (getCell_some heq1).2.1
      have h1 := countOcc_setCell (false, true) heq1
      by_cases hcpos : 0 < c
      · rw [if_pos hcpos] at heq3
        have hget1 : getCell (setCell g r c (false, true)) (r + 1) (c - 1) =
            some (false, m3) := by
          rw [getCell_setCell_ne _ hc (ne_pair_next_row r c (c - 1))]
          exact heq3
        have h2 := countOcc_setCell (true, true) hget1
        simp at h1 h2 ⊢
        omega
      · rw [if_neg hcpos] at heq3
        exact absurd heq3 (by simp)
    · simp
  · rename_i hno1 hno2 hno3 hno4 hno5
    by_cases hcc : getCell g r c = some (false, false)
    · exact absurd hcc hno1
    · rw [spawnsAt_not_empty hcc]
      simp

/-! ### Folding the scan over rows and columns -/

lemma rowScan_nil (s : Option (Nat × Nat)) (ch : Nat → Nat → Bool) (r : Nat)
    (g : Array2D) : rowScan s ch r g [] = g := rfl

lemma rowScan_cons (s : Option (Nat × Nat)) (ch : Nat → Nat → Bool) (r : Nat)
    (g : Array2D) (c : Nat) (cs : List Nat) :
    rowScan s ch r g (c :: cs) = rowScan s ch r (step s ch g r c) cs := rfl

lemma rowScan_append (s : Option (Nat × Nat)) (ch : Nat → Nat → Bool) (r : Nat)
    (g : Array2D) (cs1 cs2 : List Nat) :
    rowScan s ch r g (cs1 ++ cs2) = rowScan s ch r (rowScan s ch r g cs1) cs2 :=
  List.foldl_append _ _ _ _

lemma updatePassAux_nil (s : Option (Nat × Nat)) (ch : Nat → Nat → Bool) (C : Nat)
    (g : Array2D) : updatePassAux s ch C g [] = g := rfl

lemma updatePassAux_cons (s : Option (Nat × Nat)) (ch : Nat → Nat → Bool) (C : Nat)
    (g : Array2D) (r : Nat) (rs : List Nat) :
    updatePassAux s ch C g (r :: rs) =
      updatePassAux s ch C (rowScan s ch r g (List.range C)) rs := rfl

lemma updatePassAux_append (s : Option (Nat × Nat)) (ch : Nat → Nat → Bool) (C : Nat)
    (g : Array2D) (rs1 rs2 : List Nat) :
    updatePassAux s ch C g (rs1 ++ rs2) =
      updatePassAux s ch C (updatePassAux s ch C g rs1) rs2 :=
  List.foldl_append _ _ _ _

lemma rowScan_numRows (s : Option (Nat × Nat)) (ch : Nat → Nat → Bool) (r : Nat) :
    ∀ (cs : List Nat) (g : Array2D), (rowScan s ch r g cs).numRows = g.numRows := by
  intro cs
  induction cs with
  | nil => intro g; rfl
  | cons c cs ih =>
      intro g
      rw [rowScan_cons, ih, step_numRows]

lemma rowScan_numCols (s : Option (Nat × Nat)) (ch : Nat → Nat → Bool) (r : Nat) :
    ∀ (cs : List Nat) (g : Array2D), (rowScan s ch r g cs).numCols = g.numCols := by
  intro cs
  induction cs with
  | nil => intro g; rfl
  | cons c cs ih =>
      intro g
      rw [rowScan_cons, ih, step_numCols]

lemma updatePassAux_numRows (s : Option (Nat × Nat)) (ch : Nat → Nat → Bool) (C : Nat) :
    ∀ (rs : List Nat) (g : Array2D), (updatePassAux s ch C g rs).numRows = g.numRows := by
  intro rs
  induction rs with
  | nil => intro g; rfl
  | cons r rs ih =>
      intro g
      rw [updatePassAux_cons, ih, rowScan_numRows]

lemma updatePassAux_numCols (s : Option (Nat × Nat)) (ch : Nat → Nat → Bool) (C : Nat) :
    ∀ (rs : List Nat) (g : Array2D), (updatePassAux s ch C g rs).numCols = g.numCols := by
  intro rs
  induction rs with
  | nil => intro g; rfl
  | cons r rs ih =>
      intro g
      rw [updatePassAux_cons, ih, rowScan_numCols]

lemma countOcc_rowScan_ne {s : Option (Nat × Nat)} {ch : Nat → Nat → Bool} {r : Nat} :
    ∀ {cs : List Nat} {g : Array2D}, (∀ c ∈ cs, ¬ s = some (r, c)) →
      countOcc (rowScan s ch r g cs) = countOcc g := by
  intro cs
  induction cs with
  | nil => intro g _; rfl
  | cons c cs ih =>
      intro g h
      rw [rowScan_cons, ih (fun c' hc' => h c' (List.mem_cons_of_mem _ hc')),
        countOcc_step, spawnsAt_ne_spawner (h c (List.mem_cons_self _ _))]
      rfl

lemma countOcc_passAux_ne {s : Option (Nat × Nat)} {ch : Nat → Nat → Bool} {C : Nat} :
    ∀ {rs : List Nat} {g : Array2D},
      (∀ r' ∈ rs, ∀ c ∈ List.range C, ¬ s = some (r', c)) →
      countOcc (updatePassAux s ch C g rs) = countOcc g := by
  intro rs
  induction rs with
  | nil => intro g _; rfl
  | cons r rs ih =>
      intro g h
      rw [updatePassAux_cons, ih (fun r' hr' => h r' (List.mem_cons_of_mem _ hr')),
        countOcc_rowScan_ne (h r (List.mem_cons_self _ _))]

/-! ### Splitting the scanned index ranges -/

/-- The list `[a, a+1, ..., a+n-1]`. -/
def natsFrom (a : Nat) : Nat → List Nat
  | 0 => []
  | n + 1 => a :: natsFrom (a + 1) n

lemma natsFrom_succ_right : ∀ (n a : Nat), natsFrom a (n + 1) = natsFrom a n ++ [a + n] := by
  intro n
  induction n with
  | zero => intro a; rfl
  | succ n ih =>
      intro a
      show a :: natsFrom (a + 1) (n + 1) = (a :: natsFrom (a + 1) n) ++ [a + (n + 1)]
      rw [ih (a + 1)]
      simp [Nat.add_assoc, Nat.add_comm 1 n]

lemma range_eq_natsFrom : ∀ n : Nat, List.range n = natsFrom 0 n := by
  intro n
  induction n with
  | zero => rfl
  | succ n ih =>
      rw [List.range_succ, ih, natsFrom_succ_right]
      simp

lemma mem_natsFrom : ∀ {n a t : Nat}, t ∈ natsFrom a n → a ≤ t ∧ t < a + n := by
  intro n
  induction n with
  | zero => intro a t h; exact absurd h (by simp [natsFrom])
  | succ n ih =>
      intro a t h
      rcases List.mem_cons.1 h with h | h
      · omega
      · have := ih h
        omega

lemma natsFrom_add : ∀ (m a k : Nat), natsFrom a (m + k) = natsFrom a m ++ natsFrom (a + m) k := by
  intro m
  induction m with
  | zero => intro a k; simp [natsFrom]
  | succ m ih =>
      intro a k
      show natsFrom a (m + 1 + k) = (a :: natsFrom (a + 1) m) ++ natsFrom (a + (m + 1)) k
      have : m + 1 + k = (m + k) + 1 := by omega
      rw [this]
      show a :: natsFrom (a + 1) (m + k) = _
      rw [ih (a + 1) k]
      simp [Nat.add_assoc, Nat.add_comm 1 m]

lemma range_split {n k : Nat} (h : k < n) :
    List.range n = List.range k ++ k :: natsFrom (k + 1) (n - k - 1) := by
  rw [range_eq_natsFrom n, range_eq_natsFrom k]
  have hn : n = k + ((n - k - 1) + 1) := by omega
  rw [hn, natsFrom_add k 0 ((n - k - 1) + 1)]
  simp [natsFrom]

lemma getCell_none_row {g : Array2D} {r c : Nat} (h : ¬ r < g.numRows) :
    getCell g r c = none := by
  unfold getCell getIndex
  rw [if_neg (by tauto)]
  rfl

lemma getCell_none_col {g : Array2D} {r c : Nat} (h : ¬ c < g.numCols) :
    getCell g r c = none := by
  unfold getCell getIndex
  rw [if_neg (by tauto)]
  rfl

/-- Occupied-cell count of one full update pass: it increases by exactly
one when the spawn rule fires and is conserved otherwise. -/
lemma countOcc_updatePass (s : Option (Nat × Nat)) (ch : Nat → Nat → Bool)
    (g : Array2D) :
    countOcc (updatePass s ch g) =
      countOcc g + (if spawnFires s ch g then 1 else 0) := by
  rcases s with - | p
  · rw [show spawnFires none ch g = false from rfl]
    simp only [Bool.false_eq_true, if_false, Nat.add_zero]
    exact countOcc_passAux_ne (by intro r' _ c _ h; exact Option.noConfusion h)
  · obtain ⟨pr, pc⟩ := p
    by_cases hpr : pr < g.numRows
    · by_cases hpc : pc < g.numCols
      · -- main case: the scan reaches the emitter cell
        unfold updatePass
        rw [range_split hpr, updatePassAux_append, updatePassAux_cons]
        have hg1 : countOcc (updatePassAux (some (pr, pc)) ch g.numCols g
            (List.range pr)) = countOcc g := by
          refine countOcc_passAux_ne ?_
          intro r' hr' c _ h
          have : pr = r' := congrArg Prod.fst (Option.some.inj h)
          have hlt := List.mem_range.1 hr'
          omega
        set g1 := updatePassAux (some (pr, pc)) ch g.numCols g (List.range pr) with hg1def
        rw [range_split hpc, rowScan_append, rowScan_cons]
        have hg2 : countOcc (rowScan (some (pr, pc)) ch pr g1 (List.range pc)) =
            countOcc g1 := by
          refine countOcc_rowScan_ne ?_
          intro c hc h
          have := Option.some.inj h
          have : pc = c := congrArg Prod.snd this
          have hlt := List.mem_range.1 hc
          omega
        set g2 := rowScan (some (pr, pc)) ch pr g1 (List.range pc) with hg2def
        have hrest : countOcc (rowScan (some (pr, pc)) ch pr
            (step (some (pr, pc)) ch g2 pr pc) (natsFrom (pc + 1) (g.numCols - pc - 1))) =
            countOcc (step (some (pr, pc)) ch g2 pr pc) := by
          refine countOcc_rowScan_ne ?_
          intro c hc h
          have := Option.some.inj h
          have : pc = c := congrArg Prod.snd this
          have := mem_natsFrom hc
          omega
        have hrows : ∀ h : Array2D,
            countOcc (updatePassAux (some (pr, pc)) ch g.numCols h
              (natsFrom (pr + 1) (g.numRows - pr - 1))) = countOcc h := by
          intro h
          refine countOcc_passAux_ne ?_
          intro r' hr' c _ hh
          have := Option.some.inj hh
          have : pr = r' := congrArg Prod.fst this
          have := mem_natsFrom hr'
          omega
        rw [hrows, hrest, countOcc_step, hg2, hg1]
        have hfires : spawnsAt (some (pr, pc)) g2 pr pc =
            spawnFires (some (pr, pc)) ch g := by
          unfold spawnsAt spawnFires gridAtVisit
          rw [beq_self_eq_true, Bool.and_true]
        rw [hfires]
      · -- emitter column out of bounds: the spawn never fires
        have hnone : spawnFires (some (pr, pc)) ch g = false := by
          have hdim : (gridAtVisit (some (pr, pc)) ch g (pr, pc)).numCols =
              g.numCols := by
            unfold gridAtVisit
            rw [rowScan_numCols, updatePassAux_numCols]
          show (getCell (gridAtVisit (some (pr, pc)) ch g (pr, pc)) pr pc ==
            some (false, false)) = false
          rw [getCell_none_col (by rw [hdim]; exact hpc)]
          rfl
        rw [hnone]
        simp only [Bool.false_eq_true, if_false, Nat.add_zero]
        refine countOcc_passAux_ne ?_
        intro r' _ c hc h
        have := Option.some.inj h
        have : pc = c := congrArg Prod.snd this
        have := List.mem_range.1 hc
        omega
    · -- emitter row out of bounds: the spawn never fires
      have hnone : spawnFires (some (pr, pc)) ch g = false := by
        have hdim : (gridAtVisit (some (pr, pc)) ch g (pr, pc)).numRows =
            g.numRows := by
          unfold gridAtVisit
          rw [rowScan_numRows, updatePassAux_numRows]
        show (getCell (gridAtVisit (some (pr, pc)) ch g (pr, pc)) pr pc ==
          some (false, false)) = false
        rw [getCell_none_row (by rw [hdim]; exact hpr)]
        rfl
      rw [hnone]
      simp only [Bool.false_eq_true, if_false, Nat.add_zero]
      refine countOcc_passAux_ne ?_
      intro r' hr' c _ h
      have := Option.some.inj h
      have : pr = r' := congrArg Prod.fst this
      have := List.mem_range.1 hr'
      omega

/-! ### The mark-clearing loop preserves occupancy -/

lemma setCell_oob {h : Array2D} {r c : Nat} (v : Cell)
    (hr : r < h.numRows) (hc : c < h.numCols) (hg : getCell h r c = none) :
    setCell h r c v = h := by
  have hb : getCell h r c = h.data[r * h.numCols + c]? := getCell_of_bounds hr hc
  rw [hg] at hb
  have hlen : h.data.length ≤ r * h.numCols + c := by
    by_contra hlt
    push_neg at hlt
    rw [List.getElem?_eq_getElem hlt] at hb
    exact Option.noConfusion hb
  show { h with data := h.data.set (r * h.numCols + c) v } = h
  rw [List.set_eq_of_length_le hlen]

lemma clearStep_count {h : Array2D} {r c : Nat}
    (hr : r < h.numRows) (hc : c < h.numCols) :
    countOcc (setCell h r c ((cellAt h r c).1, false)) = countOcc h := by
  rcases hg : getCell h r c with - | w
  · rw [setCell_oob _ hr hc hg]
  · have hcount := countOcc_setCell ((cellAt h r c).1, false) hg
    have hcell : cellAt h r c = w := by unfold cellAt; rw [hg]; rfl
    rw [hcell] at hcount ⊢
    simp at hcount
    omega

lemma clearStep_isOcc {h : Array2D} {r c r' c' : Nat}
    (hr : r < h.numRows) (hc : c < h.numCols) :
    isOcc (setCell h r c ((cellAt h r c).1, false)) r' c' = isOcc h r' c' := by
  rcases hg : getCell h r c with - | w
  · rw [setCell_oob _ hr hc hg]
  · by_cases hne : (r, c) = (r', c')
    · have hrr : r = r' := congrArg Prod.fst hne
      have hcc : c = c' := congrArg Prod.snd hne
      subst hrr; subst hcc
      have hself := getCell_setCell_self ((cellAt h r c).1, false) hg
      unfold isOcc
      rw [hself, hg]
      have hcell : cellAt h r c = w := by unfold cellAt; rw [hg]; rfl
      rw [hcell]
    · unfold isOcc
      rw [getCell_setCell_ne _ hc hne]

lemma clearCols_dims (r : Nat) :
    ∀ (cs : List Nat) (h : Array2D),
      ((cs.foldl (fun h c => setCell h r c ((cellAt h r c).1, false)) h).numRows =
          h.numRows) ∧
        ((cs.foldl (fun h c => setCell h r c ((cellAt h r c).1, false)) h).numCols =
          h.numCols) := by
  intro cs
  induction cs with
  | nil => intro h; exact ⟨rfl, rfl⟩
  | cons c cs ih =>
      intro h
      rw [List.foldl_cons]
      exact ⟨(ih _).1.trans rfl, (ih _).2.trans rfl⟩

lemma clearCols_count (r : Nat) :
    ∀ (cs : List Nat) (h : Array2D), r < h.numRows → (∀ c ∈ cs, c < h.numCols) →
      countOcc (cs.foldl (fun h c => setCell h r c ((cellAt h r c).1, false)) h) =
        countOcc h := by
  intro cs
  induction cs with
  | nil => intro h _ _; rfl
  | cons c cs ih =>
      intro h hr hcs
      rw [List.foldl_cons,
        ih (setCell h r c ((cellAt h r c).1, false)) hr
          (fun c' hc' => hcs c' (List.mem_cons_of_mem _ hc')),
        clearStep_count hr (hcs c (List.mem_cons_self _ _))]

lemma clearCols_isOcc (r r' c' : Nat) :
    ∀ (cs : List Nat) (h : Array2D), r < h.numRows → (∀ c ∈ cs, c < h.numCols) →
      isOcc (cs.foldl (fun h c => setCell h r c ((cellAt h r c).1, false)) h) r' c' =
        isOcc h r' c' := by
  intro cs
  induction cs with
  | nil => intro h _ _; rfl
  | cons c cs ih =>
      intro h hr hcs
      rw [List.foldl_cons,
        ih (setCell h r c ((cellAt h r c).1, false)) hr
          (fun x hx => hcs x (List.mem_cons_of_mem _ hx)),
        clearStep_isOcc hr (hcs c (List.mem_cons_self _ _))]

lemma clearRows_count (cs : List Nat) :
    ∀ (rs : List Nat) (h : Array2D), (∀ r ∈ rs, r < h.numRows) →
      (∀ c ∈ cs, c < h.numCols) →
      countOcc (rs.foldl
          (fun h r => cs.foldl (fun h c => setCell h r c ((cellAt h r c).1, false)) h)
          h) = countOcc h := by
  intro rs
  induction rs with
  | nil => intro h _ _; rfl
  | cons r rs ih =>
      intro h hrs hcs
      rw [List.foldl_cons]
      have hd := clearCols_dims r cs h
      rw [ih _ (fun x hx => by rw [hd.1]; exact hrs x (List.mem_cons_of_mem _ hx))
          (fun x hx => by rw [hd.2]; exact hcs x hx),
        clearCols_count r cs h (hrs r (List.mem_cons_self _ _)) hcs]

lemma clearRows_isOcc (cs : List Nat) (r' c' : Nat) :
    ∀ (rs : List Nat) (h : Array2D), (∀ r ∈ rs, r < h.numRows) →
      (∀ c ∈ cs, c < h.numCols) →
      isOcc (rs.foldl
          (fun h r => cs.foldl (fun h c => setCell h r c ((cellAt h r c).1, false)) h)
          h) r' c' = isOcc h r' c' := by
  intro rs
  induction rs with
  | nil => intro h _ _; rfl
  | cons r rs ih =>
      intro h hrs hcs
      rw [List.foldl_cons]
      have hd := clearCols_dims r cs h
      rw [ih _ (fun x hx => by rw [hd.1]; exact hrs x (List.mem_cons_of_mem _ hx))
          (fun x hx => by rw [hd.2]; exact hcs x hx),
        clearCols_isOcc r r' c' cs h (hrs r (List.mem_cons_self _ _)) hcs]

lemma countOcc_clearMarks (g : Array2D) : countOcc (clearMarks g) = countOcc g := by
  unfold clearMarks
  exact clearRows_count _ _ _ (fun r hr => List.mem_range.1 hr)
    (fun c hc => List.mem_range.1 hc)

lemma isOcc_clearMarks (g : Array2D) (r c : Nat) :
    isOcc (clearMarks g) r c = isOcc g r c := by
  unfold clearMarks
  exact clearRows_isOcc _ _ _ _ _ (fun r hr => List.mem_range.1 hr)
    (fun c hc => List.mem_range.1 hc)

/-! ### Claim 1: occupied-cell count across one tick -/

/-- C1 (amended): in every tick the number of occupied cells changes by
exactly `+1` if and only if the emitter is active at an in-bounds cell that
is still empty and unmarked at the moment the row-major scan reaches it;
in every other case the occupied-cell count is exactly conserved (rules
2-5 only ever move particles).  The claim as frozen — with "empty at tick
start" in place of "empty when the scan reaches it" — is refuted by
`claim1_counterexample`: a particle can fall into the emitter cell earlier
in the same pass, and then no spawn happens. -/
theorem claim1_theorem (s : Option (Nat × Nat)) (ch : Nat → Nat → Bool)
    (g : Array2D) :
    countOcc (tick s ch g) =
      countOcc g + (if spawnFires s ch g then 1 else 0) := by
  unfold tick
  rw [countOcc_clearMarks, countOcc_updatePass]

/-- Grid with one particle at `(0, 0)` on a 4-row, 1-column grid. -/
def gC1 : Array2D := setCell (emptyGrid 4 1) 0 0 (true, false)

/-- C1 (counterexample to the claim as stated): the emitter is active at
`(1, 0)`, which is empty at tick start, yet the tick conserves the
occupied-cell count (1 particle before, 1 after) instead of adding one:
the particle at `(0, 0)` falls into the emitter cell before the scan
reaches it, so the spawn rule does not fire. -/
theorem claim1_counterexample :
    getCell gC1 1 0 = some (false, false) ∧
      countOcc gC1 = 1 ∧
      countOcc (tick (some (1, 0)) chTrue gC1) = 1 := by decide

/-! ### Claim 2: movement targets are written at most once per pass -/

/-- Every movement target of one decision-table evaluation lies in the row
below the scanned cell, was empty before the step, and is occupied after
it. -/
lemma stepFull_targets {s : Option (Nat × Nat)} {ch : Nat → Nat → Bool}
    {g : Array2D} {r c : Nat} {t : Nat × Nat}
    (ht : t ∈ (stepFull s ch g r c).2) :
    t.1 = r + 1 ∧ isOcc g t.1 t.2 = false ∧
      isOcc (stepFull s ch g r c).1 t.1 t.2 = true := by
  unfold stepFull at ht ⊢
  split at ht
  · simp at ht
  · rename_i m heq1 heq2
    split at ht
    · rename_i hguard
      simp at ht
      subst ht
      have hc : c < g.numCols := (getCell_some heq1).2.1
      have hget1 : getCell (setCell g r c (false, true)) (r + 1) c =
          some (false, m) := by
        rw [getCell_setCell_ne _ hc (ne_pair_next_row r c c)]; exact heq2
      refine ⟨rfl, ?_, ?_⟩
      · unfold isOcc; rw [heq2]
      · dsimp only
        rw [if_pos hguard]
        unfold isOcc
        rw [getCell_setCell_self _ hget1]
    · simp at ht
  · rename_i m1 m2 m3 m4 heq1 heq2 heq3 heq4
    split at ht
    · rename_i hguard
      simp at ht
      subst ht
      have hc : c < g.numCols := (getCell_some heq1).2.1
      refine ⟨rfl, ?_, ?_⟩
      · by_cases hch : ch r c
        · rw [if_pos hch]
          by_cases hcpos : 0 < c
          · rw [if_pos hcpos] at heq3
            unfold isOcc; rw [heq3]
          · rw [if_neg hcpos] at heq3; exact absurd heq3 (by simp)
        · rw [if_neg hch]
          unfold isOcc; rw [heq4]
      · dsimp only
        rw [if_pos hguard]
        by_cases hch : ch r c
        · rw [if_pos hch]
          by_cases hcpos : 0 < c
          · rw [if_pos hcpos] at heq3
            have hget1 : getCell (setCell g r c (false, true)) (r + 1) (c - 1) =
                some (false, m3) := by
              rw [getCell_setCell_ne _ hc (ne_pair_next_row r c (c - 1))]; exact heq3
            unfold isOcc
            rw [getCell_setCell_self _ hget1]
          · rw [if_neg hcpos] at heq3; exact absurd heq3 (by simp)
        · rw [if_neg hch]
          have hget1 : getCell (setCell g r c (false, true)) (r + 1) (c + 1) =
              some (false, m4) := by
            rw [getCell_setCell_ne _ hc (ne_pair_next_row r c (c + 1))]; exact heq4
          unfold isOcc
          rw [getCell_setCell_self _ hget1]
    · simp at ht
  · rename_i m1 m2 m3 m4 heq1 heq2 heq3 heq4
    split at ht
    · rename_i hguard
      simp at ht
      subst ht
      have hc : c < g.numCols := (getCell_some heq1).2.1
      have hget1 : getCell (setCell g r c (false, true)) (r + 1) (c + 1) =
          some (false, m4) := by
        rw [getCell_setCell_ne _ hc (ne_pair_next_row r c (c + 1))]; exact heq4
      refine ⟨rfl, ?_, ?_⟩
      · unfold isOcc; rw [heq4]
      · dsimp only
        rw [if_pos hguard]
        unfold isOcc
        rw [getCell_setCell_self _ hget1]
    · simp at ht
  · rename_i m1 m2 m3 m4 heq1 heq2 heq3 heq4
    split at ht
    · rename_i hguard
      simp at ht
      subst ht
      have hc : c < g.numCols := (getCell_some heq1).2.1
      by_cases hcpos : 0 < c
      · rw [if_pos hcpos] at heq3
        have hget1 : getCell (setCell g r c (false, true)) (r + 1) (c - 1) =
            some (false, m3) := by
          rw [getCell_setCell_ne _ hc (ne_pair_next_row r c (c - 1))]; exact heq3
        refine ⟨rfl, ?_, ?_⟩
        · unfold isOcc; rw [heq3]
        · dsimp only
          rw [if_pos hguard]
          unfold isOcc
          rw [getCell_setCell_self _ hget1]
      · rw [if_neg hcpos] at heq3; exact absurd heq3 (by simp)
    · simp at ht
  · simp at ht

/-- A step of the decision table never clears any cell other than the one
being scanned. -/
lemma step_keeps_occ {s : Option (Nat × Nat)} {ch : Nat → Nat → Bool}
    {g : Array2D} {r c q1 q2 : Nat}
    (hocc : isOcc g q1 q2 = true) (hne : (r, c) ≠ (q1, q2)) :
    isOcc (step s ch g r c) q1 q2 = true := by
  obtain ⟨m, hget⟩ := isOcc_eq_true hocc
  have keepMove : ∀ (c' : Nat) (m' : Bool),
      getCell g (r + 1) c' = some (false, m') → c < g.numCols →
      isOcc (setCell (setCell g r c (false, true)) (r + 1) c' (true, true))
        q1 q2 = true := by
    intro c' m' heqT hc
    have hget1 : getCell (setCell g r c (false, true)) (r + 1) c' =
        some (false, m') := by
      rw [getCell_setCell_ne _ hc (ne_pair_next_row r c c')]; exact heqT
    have hcT : c' < (setCell g r c (false, true)).numCols :=
      (getCell_some hget1).2.1
    by_cases htq : ((r + 1, c') : Nat × Nat) = (q1, q2)
    · have hself := getCell_setCell_self (true, true) hget1
      have hq1 : r + 1 = q1 := congrArg Prod.fst htq
      have hq2 : c' = q2 := congrArg Prod.snd htq
      subst hq1
      subst hq2
      unfold isOcc
      rw [hself]
    · unfold isOcc
      rw [getCell_setCell_ne _ hcT htq, getCell_setCell_ne _ hc hne, hget]
  unfold step stepFull
  split
  · rename_i heq1
    have hc : c < g.numCols := (getCell_some heq1).2.1
    show isOcc (if s = some (r, c) then setCell g r c (true, true) else g) q1 q2 = true
    split
    · unfold isOcc
      rw [getCell_setCell_ne _ hc hne, hget]
    · exact hocc
  · rename_i m2 heq1 heq2
    have hc : c < g.numCols := (getCell_some heq1).2.1
    show isOcc (if r < g.numRows - 3 then
        (setCell (setCell g r c (false, true)) (r + 1) c (true, true), [(r + 1, c)])
      else (g, [])).1 q1 q2 = true
    split
    · exact keepMove c m2 heq2 hc
    · exact hocc
  · rename_i m1 m2 m3 m4 heq1 heq2 heq3 heq4
    have hc : c < g.numCols := (getCell_some heq1).2.1
    show isOcc (if r < g.numRows - 3 then
        (setCell (setCell g r c (false, true)) (r + 1)
            (if ch r c then c - 1 else c + 1) (true, true),
          [(r + 1, if ch r c then c - 1 else c + 1)])
      else (g, [])).1 q1 q2 = true
    split
    · by_cases hch : ch r c
      · rw [if_pos hch]
        by_cases hcpos : 0 < c
        · rw [if_pos hcpos] at heq3
          exact keepMove (c - 1) m3 heq3 hc
        · rw [if_neg hcpos] at heq3; exact absurd heq3 (by simp)
      · rw [if_neg hch]
        exact keepMove (c + 1) m4 heq4 hc
    · exact hocc
  · rename_i m1 m2 m3 m4 heq1 heq2 heq3 heq4
    have hc : c < g.numCols := (getCell_some heq1).2.1
    show isOcc (if r < g.numRows - 3 then
        (setCell (setCell g r c (false, true)) (r + 1) (c + 1) (true, true),
          [(r + 1, c + 1)])
      else (g, [])).1 q1 q2 = true
    split
    · exact keepMove (c + 1) m4 heq4 hc
    · exact hocc
  · rename_i m1 m2 m3 m4 heq1 heq2 heq3 heq4
    have hc : c < g.numCols := (getCell_some heq1).2.1
    show isOcc (if r < g.numRows - 3 then
        (setCell (setCell g r c (false, true)) (r + 1) (c - 1) (true, true),
          [(r + 1, c - 1)])
      else (g, [])).1 q1 q2 = true
    split
    · by_cases hcpos : 0 < c
      · rw [if_pos hcpos] at heq3
        exact keepMove (c - 1) m3 heq3 hc
      · rw [if_neg hcpos] at heq3; exact absurd heq3 (by simp)
    · exact hocc
  · exact hocc

lemma stepTargets_cases (s : Option (Nat × Nat)) (ch : Nat → Nat → Bool)
    (g : Array2D) (r c : Nat) :
    stepTargets s ch g r c = [] ∨ ∃ t, stepTargets s ch g r c = [t] := by
  unfold stepTargets stepFull
  split
  · exact Or.inl rfl
  · by_cases hg : r < g.numRows - 3
    · rw [if_pos hg]
      exact Or.inr ⟨_, rfl⟩
    · rw [if_neg hg]
      exact Or.inl rfl
  · by_cases hg : r < g.numRows - 3
    · rw [if_pos hg]
      exact Or.inr ⟨_, rfl⟩
    · rw [if_neg hg]
      exact Or.inl rfl
  · by_cases hg : r < g.numRows - 3
    · rw [if_pos hg]
      exact Or.inr ⟨_, rfl⟩
    · rw [if_neg hg]
      exact Or.inl rfl
  · by_cases hg : r < g.numRows - 3
    · rw [if_pos hg]
      exact Or.inr ⟨_, rfl⟩
    · rw [if_neg hg]
      exact Or.inl rfl
  · exact Or.inl rfl

lemma stepTargets_mem {s : Option (Nat × Nat)} {ch : Nat → Nat → Bool}
    {g : Array2D} {r c : Nat} {t : Nat × Nat} (ht : t ∈ stepTargets s ch g r c) :
    t.1 = r + 1 ∧ isOcc g t.1 t.2 = false ∧ isOcc (step s ch g r c) t.1 t.2 = true :=
  stepFull_targets ht

/-- A cell of the row below that is occupied when the scan of row `r`
reaches column `c` is not a later movement target of that row scan and is
still occupied when the row scan ends. -/
lemma rowScan_occ_below {s : Option (Nat × Nat)} {ch : Nat → Nat → Bool} {r : Nat} :
    ∀ (cs : List Nat) (g : Array2D) (t : Nat × Nat), t.1 = r + 1 →
      isOcc g t.1 t.2 = true →
      t ∉ rowTargets s ch r g cs ∧ isOcc (rowScan s ch r g cs) t.1 t.2 = true := by
  intro cs
  induction cs with
  | nil =>
      intro g t _ hocc
      exact ⟨by simp [rowTargets], hocc⟩
  | cons c cs ih =>
      intro g t ht1 hocc
      have hstep : t ∉ stepTargets s ch g r c := by
        intro hmem
        have := (stepTargets_mem hmem).2.1
        rw [hocc] at this
        exact Bool.noConfusion this
      have hne : (r, c) ≠ (t.1, t.2) := by
        rw [ht1]
        exact ne_pair_next_row r c t.2
      have hkeep : isOcc (step s ch g r c) t.1 t.2 = true := step_keeps_occ hocc hne
      obtain ⟨hnot, hfin⟩ := ih (step s ch g r c) t ht1 hkeep
      refine ⟨?_, ?_⟩
      · show t ∉ stepTargets s ch g r c ++ rowTargets s ch r (step s ch g r c) cs
        rw [List.mem_append]
        rintro (h | h)
        · exact hstep h
        · exact hnot h
      · exact hfin

lemma rowTargets_row {s : Option (Nat × Nat)} {ch : Nat → Nat → Bool} {r : Nat} :
    ∀ (cs : List Nat) (g : Array2D) (t : Nat × Nat),
      t ∈ rowTargets s ch r g cs → t.1 = r + 1 := by
  intro cs
  induction cs with
  | nil => intro g t ht; exact absurd ht (by simp [rowTargets])
  | cons c cs ih =>
      intro g t ht
      rcases List.mem_append.1 ht with h | h
      · exact (stepTargets_mem h).1
      · exact ih _ _ h

lemma rowTargets_nodup {s : Option (Nat × Nat)} {ch : Nat → Nat → Bool} {r : Nat} :
    ∀ (cs : List Nat) (g : Array2D), (rowTargets s ch r g cs).Nodup := by
  intro cs
  induction cs with
  | nil => intro g; simp [rowTargets]
  | cons c cs ih =>
      intro g
      show (stepTargets s ch g r c ++ rowTargets s ch r (step s ch g r c) cs).Nodup
      rcases stepTargets_cases s ch g r c with hst | ⟨t0, hst⟩
      · rw [hst, List.nil_append]
        exact ih _
      · rw [hst, List.singleton_append, List.nodup_cons]
        refine ⟨?_, ih _⟩
        have ht0 : t0 ∈ stepTargets s ch g r c := by rw [hst]; exact List.mem_singleton_self _
        obtain ⟨h1, -, h3⟩ := stepTargets_mem ht0
        exact (rowScan_occ_below cs (step s ch g r c) t0 h1 h3).1

lemma passTargetsAux_nodup {s : Option (Nat × Nat)} {ch : Nat → Nat → Bool} {C : Nat} :
    ∀ (n a : Nat) (g : Array2D),
      (passTargetsAux s ch C g (natsFrom a n)).Nodup ∧
        ∀ t ∈ passTargetsAux s ch C g (natsFrom a n), a < t.1 := by
  intro n
  induction n with
  | zero =>
      intro a g
      constructor
      · simp [natsFrom, passTargetsAux]
      · intro t ht
        exact absurd ht (by simp [natsFrom, passTargetsAux])
  | succ n ih =>
      intro a g
      show (rowTargets s ch a g (List.range C) ++
          passTargetsAux s ch C (rowScan s ch a g (List.range C)) (natsFrom (a + 1) n)).Nodup ∧ _
      obtain ⟨ihn, ihb⟩ := ih (a + 1) (rowScan s ch a g (List.range C))
      constructor
      · refine List.Nodup.append (rowTargets_nodup _ _) ihn ?_
        rw [List.disjoint_left]
        intro t htr htp
        have h1 : t.1 = a + 1 := rowTargets_row _ _ _ htr
        have h2 : a + 1 < t.1 := ihb t htp
        omega
      · intro t ht
        rcases List.mem_append.1 ht with h | h
        · have := rowTargets_row _ _ _ h
          omega
        · have := ihb t h
          omega

/-- The dead branch of the marked straight-down rule: an occupied cell
whose mark is set and whose below neighbour is empty matches no arm of the
decision table, so the particle does not move again straight down. -/
lemma step_marked {s : Option (Nat × Nat)} {ch : Nat → Nat → Bool}
    {g : Array2D} {r c : Nat} {m : Bool}
    (h1 : getCell g r c = some (true, true))
    (h2 : getCell g (r + 1) c = some (false, m)) :
    step s ch g r c = g := by
  unfold step stepFull
  rw [h1, h2]

/-- C2 (amended): within one update pass no cell is ever written as a
movement target more than once (the recorded target list has no
duplicates), and the settled mark prevents a marked particle from moving
again by the straight-down rule (a marked occupied cell above an empty
cell matches no rule and stays put).  The claim as frozen additionally
asserts that no particle that moved is moved again within the same pass;
that part is refuted by `claim2_counterexample`: the diagonal rules 3-5 do
not consult the mark, so a particle that has just fallen straight down can
immediately slide diagonally within the same pass. -/
theorem claim2_theorem (s : Option (Nat × Nat)) (ch : Nat → Nat → Bool)
    (g : Array2D) (r c : Nat) (m : Bool)
    (h1 : getCell g r c = some (true, true))
    (h2 : getCell g (r + 1) c = some (false, m)) :
    (updatePassTargets s ch g).Nodup ∧ step s ch g r c = g := by
  constructor
  · unfold updatePassTargets
    rw [range_eq_natsFrom]
    exact (passTargetsAux_nodup g.numRows 0 g).1
  · exact step_marked h1 h2

/-- Grid for the marked-cell witness: `(1, 1)` occupied and marked on an
otherwise empty 5-row, 3-column grid. -/
def gC2W : Array2D := setCell (emptyGrid 5 3) 1 1 (true, true)

theorem claim2_witness :
    (updatePassTargets none chTrue gC2W).Nodup ∧ step none chTrue gC2W 1 1 = gC2W :=
  claim2_theorem none chTrue gC2W 1 1 false (by decide) (by decide)

/-- Particles at `(0, 1)`, `(2, 0)` and `(2, 1)` on a 5-row, 3-column
grid: the particle at `(0, 1)` falls to `(1, 1)` and then — although
marked — slides on to `(2, 2)` in the same pass. -/
def gC2 : Array2D :=
  setCell (setCell (setCell (emptyGrid 5 3) 0 1 (true, false)) 2 0 (true, false))
    2 1 (true, false)

/-- C2 (counterexample to the claim as stated): during a single update
pass the particle that moved into target `(1, 1)` is moved again to
`(2, 2)` (rule 4 ignores the mark), so after the pass `(1, 1)` is empty
again and `(2, 2)` is occupied. -/
theorem claim2_counterexample :
    updatePassTargets none chTrue gC2 = [(1, 1), (2, 2)] ∧
      isOcc (updatePass none chTrue gC2) 1 1 = false ∧
      isOcc (updatePass none chTrue gC2) 2 2 = true ∧
      isOcc (updatePass none chTrue gC2) 0 1 = false := by decide

/-! ### The random draw only matters when rule 3 fires -/

/-- Whether the decision table at `(r, c)` consults the random draw: true
exactly when rule 3's pattern matches and its row guard holds (the
ambiguous-fall arm is the only one that calls `choose`). -/
def stepUsesChoice (s : Option (Nat × Nat)) (g : Array2D) (r c : Nat) : Bool :=
  match getCell g r c, getCell g (r + 1) c,
      (if 0 < c then getCell g (r + 1) (c - 1) else none),
      getCell g (r + 1) (c + 1) with
  | some (true, _), some (true, _), some (false, _), some (false, _) =>
      decide (r < g.numRows - 3)
  | _, _, _, _ => false

/-- A step that does not consult the draw is independent of it. -/
lemma stepFull_choice_irrel {s : Option (Nat × Nat)} {g : Array2D} {r c : Nat}
    (h : stepUsesChoice s g r c = false) (ch ch' : Nat → Nat → Bool) :
    stepFull s ch g r c = stepFull s ch' g r c := by
  unfold stepFull
  split <;> try rfl
  rename_i m1 m2 m3 m4 heq1 heq2 heq3 heq4
  unfold stepUsesChoice at h
  rw [heq1, heq2, heq3, heq4] at h
  simp at h
  rw [if_neg (by omega), if_neg (by omega)]

/-- Whether any cell of a row scan consults the draw; the grid is
threaded with the constant-true draw, which by `rowScan_choice_irrel` is
harmless whenever the flag is false. -/
def rowUsesChoice (s : Option (Nat × Nat)) (r : Nat) :
    Array2D → List Nat → Bool
  | _, [] => false
  | g, c :: cs =>
      stepUsesChoice s g r c || rowUsesChoice s r (step s chTrue g r c) cs

/-- Whether any cell of a whole pass consults the draw. -/
def passUsesChoice (s : Option (Nat × Nat)) (C : Nat) :
    Array2D → List Nat → Bool
  | _, [] => false
  | g, r :: rs =>
      rowUsesChoice s r g (List.range C) ||
        passUsesChoice s C (rowScan s chTrue r g (List.range C)) rs

/-- Whether the update pass on `g` consults the random draw at all. -/
def updatePassUsesChoice (s : Option (Nat × Nat)) (g : Array2D) : Bool :=
  passUsesChoice s g.numCols g (List.range g.numRows)

lemma rowScan_choice_irrel {s : Option (Nat × Nat)} {r : Nat} :
    ∀ (cs : List Nat) (g : Array2D), rowUsesChoice s r g cs = false →
      ∀ ch : Nat → Nat → Bool, rowScan s ch r g cs = rowScan s chTrue r g cs := by
  intro cs
  induction cs with
  | nil => intro g _ ch; rfl
  | cons c cs ih =>
      intro g h ch
      have h2 : stepUsesChoice s g r c = false ∧
          rowUsesChoice s r (step s chTrue g r c) cs = false := by
        have := h
        unfold rowUsesChoice at this
        exact Bool.or_eq_false_iff.1 this
      have hstep : step s ch g r c = step s chTrue g r c :=
        congrArg Prod.fst (stepFull_choice_irrel h2.1 ch chTrue)
      rw [rowScan_cons, hstep, ih _ h2.2 ch, rowScan_cons]

lemma updatePassAux_choice_irrel {s : Option (Nat × Nat)} {C : Nat} :
    ∀ (rs : List Nat) (g : Array2D), passUsesChoice s C g rs = false →
      ∀ ch : Nat → Nat → Bool,
        updatePassAux s ch C g rs = updatePassAux s chTrue C g rs := by
  intro rs
  induction rs with
  | nil => intro g _ ch; rfl
  | cons r rs ih =>
      intro g h ch
      have h2 : rowUsesChoice s r g (List.range C) = false ∧
          passUsesChoice s C (rowScan s chTrue r g (List.range C)) rs = false := by
        have := h
        unfold passUsesChoice at this
        exact Bool.or_eq_false_iff.1 this
      rw [updatePassAux_cons, rowScan_choice_irrel _ _ h2.1 ch, ih _ h2.2 ch,
        updatePassAux_cons]

/-- A tick whose pass never reaches rule 3 is independent of the random
draw. -/
lemma tick_choice_irrel {s : Option (Nat × Nat)} {g : Array2D}
    (h : updatePassUsesChoice s g = false) (ch : Nat → Nat → Bool) :
    tick s ch g = tick s chTrue g := by
  unfold tick updatePass
  rw [updatePassAux_choice_irrel _ _ h ch]

/-! ### Claim 3: the 5x5 emitter startup run -/

/-- Grid after one tick from an all-empty 5x5 grid with the emitter at
`(0, 2)`. -/
def c3tick1 (ch1 : Nat → Nat → Bool) : Array2D :=
  tick (some (0, 2)) ch1 (emptyGrid 5 5)

/-- Grid after the second tick of the startup run. -/
def c3tick2 (ch1 ch2 : Nat → Nat → Bool) : Array2D :=
  tick (some (0, 2)) ch2 (c3tick1 ch1)

/-- C3 (amended): starting from the all-empty 5x5 grid with the emitter
at `(0, 2)`, and for every sequence of random draws: after tick 1 exactly
one cell is occupied, namely `(0, 2)` with its mark cleared.  After tick 2
still exactly one cell is occupied, namely `(1, 2)`, and `(0, 2)` is
empty: the particle falls from `(0, 2)` to `(1, 2)`, but the spawn rule
does not re-fire at `(0, 2)` within the same tick, because the row-major
scan visits each cell exactly once and has already passed `(0, 2)`.  The
emitter cell is refilled only by tick 3, after which `(0, 2)` and
`(2, 2)` are the two occupied cells.  The frozen claim's assertion that
`(0, 2)` and `(1, 2)` are both occupied after tick 2 is refuted by
`claim3_counterexample`. -/
theorem claim3_theorem (ch1 ch2 ch3 : Nat → Nat → Bool) :
    (countOcc (c3tick1 ch1) = 1 ∧ cellAt (c3tick1 ch1) 0 2 = (true, false)) ∧
      (countOcc (c3tick2 ch1 ch2) = 1 ∧
        cellAt (c3tick2 ch1 ch2) 1 2 = (true, false) ∧
        cellAt (c3tick2 ch1 ch2) 0 2 = (false, false)) ∧
      (cellAt (tick (some (0, 2)) ch3 (c3tick2 ch1 ch2)) 0 2 = (true, false) ∧
        cellAt (tick (some (0, 2)) ch3 (c3tick2 ch1 ch2)) 2 2 = (true, false) ∧
        countOcc (tick (some (0, 2)) ch3 (c3tick2 ch1 ch2)) = 2) := by
  have e1 : c3tick1 ch1 = tick (some (0, 2)) chTrue (emptyGrid 5 5) :=
    tick_choice_irrel (by decide) ch1
  have e2 : c3tick2 ch1 ch2 =
      tick (some (0, 2)) chTrue (tick (some (0, 2)) chTrue (emptyGrid 5 5)) := by
    show tick (some (0, 2)) ch2 (c3tick1 ch1) = _
    rw [e1]
    exact tick_choice_irrel (by decide) ch2
  have e3 : tick (some (0, 2)) ch3 (c3tick2 ch1 ch2) =
      tick (some (0, 2)) chTrue (tick (some (0, 2)) chTrue
        (tick (some (0, 2)) chTrue (emptyGrid 5 5))) := by
    rw [e2]
    exact tick_choice_irrel (by decide) ch3
  rw [e3, e2, e1]
  exact ⟨⟨by decide, by decide⟩, ⟨by decide, by decide, by decide⟩,
    ⟨by decide, by decide, by decide⟩⟩

/-- C3 (counterexample to the claim as stated): after tick 2 the emitter
cell `(0, 2)` is not occupied — only `(1, 2)` is. -/
theorem claim3_counterexample :
    isOcc (c3tick2 chTrue chTrue) 0 2 = false ∧
      isOcc (c3tick2 chTrue chTrue) 1 2 = true := by decide

/-! ### Claims 4 and 5: row guards of the decision table -/

/-- The spawn rule has no row guard: at any in-bounds, empty, unmarked
emitter cell — bottom rows included — rule 1 fires. -/
lemma step_spawn {s : Option (Nat × Nat)} {ch : Nat → Nat → Bool}
    {g : Array2D} {r c : Nat}
    (h1 : getCell g r c = some (false, false)) (hs : s = some (r, c)) :
    step s ch g r c = setCell g r c (true, true) := by
  unfold step stepFull
  rw [h1]
  show (if s = some (r, c) then setCell g r c (true, true) else g,
      ([] : List (Nat × Nat))).1 = setCell g r c (true, true)
  rw [if_pos hs]

/-- An occupied cell whose row fails the movement guard
`row < column_len() - 3` is left unchanged by the decision table. -/
lemma step_bottom {s : Option (Nat × Nat)} {ch : Nat → Nat → Bool}
    {g : Array2D} {r c : Nat}
    (hocc : isOcc g r c = true) (hg : ¬ r < g.numRows - 3) :
    step s ch g r c = g := by
  obtain ⟨m, hget⟩ := isOcc_eq_true hocc
  unfold step stepFull
  split
  · rename_i heq1
    rw [hget] at heq1
    simp at heq1
  · rename_i m2 heq1 heq2
    show (if r < g.numRows - 3 then
        (setCell (setCell g r c (false, true)) (r + 1) c (true, true), [(r + 1, c)])
      else (g, [])).1 = g
    rw [if_neg hg]
  · rename_i m1 m2 m3 m4 heq1 heq2 heq3 heq4
    show (if r < g.numRows - 3 then
        (setCell (setCell g r c (false, true)) (r + 1)
            (if ch r c then c - 1 else c + 1) (true, true),
          [(r + 1, if ch r c then c - 1 else c + 1)])
      else (g, [])).1 = g
    rw [if_neg hg]
  · rename_i m1 m2 m3 m4 heq1 heq2 heq3 heq4
    show (if r < g.numRows - 3 then
        (setCell (setCell g r c (false, true)) (r + 1) (c + 1) (true, true),
          [(r + 1, c + 1)])
      else (g, [])).1 = g
    rw [if_neg hg]
  · rename_i m1 m2 m3 m4 heq1 heq2 heq3 heq4
    show (if r < g.numRows - 3 then
        (setCell (setCell g r c (false, true)) (r + 1) (c - 1) (true, true),
          [(r + 1, c - 1)])
      else (g, [])).1 = g
    rw [if_neg hg]
  · rfl

/-- C4 (amended): only the four movement rules are guarded by the row
condition, and that condition is `row < column_len() - 3` — movement stops
in the bottom three rows, not two.  The spawn rule (rule 1) carries no row
guard at all: it fires at any in-bounds emitter cell that reads
`(false, false)`, including the bottom two rows.  The claim as frozen —
every rule guarded by "not at the bottom two rows" — is refuted on both
counts by `claim4_counterexample`. -/
theorem claim4_theorem (s : Option (Nat × Nat)) (ch : Nat → Nat → Bool)
    (g : Array2D) (r c : Nat) :
    (getCell g r c = some (false, false) → s = some (r, c) →
        step s ch g r c = setCell g r c (true, true)) ∧
      (isOcc g r c = true → ¬ r < g.numRows - 3 → step s ch g r c = g) :=
  ⟨fun h1 hs => step_spawn h1 hs, fun ho hg => step_bottom ho hg⟩

/-- Grid with one particle at `(2, 0)` on a 5-row, 1-column grid. -/
def gC4 : Array2D := setCell (emptyGrid 5 1) 2 0 (true, false)

theorem claim4_witness :
    step (some (4, 0)) chTrue gC4 4 0 = setCell gC4 4 0 (true, true) ∧
      step (some (4, 0)) chTrue gC4 2 0 = gC4 :=
  ⟨(claim4_theorem (some (4, 0)) chTrue gC4 4 0).1 (by decide) rfl,
    (claim4_theorem (some (4, 0)) chTrue gC4 2 0).2 (by decide) (by decide)⟩

/-- C4 (counterexample to the claim as stated): on a 5-row, 1-column grid
the spawn rule fires at `(4, 0)` — the bottom row — although the claim
says every rule is guarded by "not at the bottom two rows"; and the
particle at `(2, 0)`, which is above the bottom two rows and satisfies
all other conditions of rule 2 (occupied, unmarked, below empty), does
not move, because the actual guard `row < column_len() - 3` already fails
at row 2. -/
theorem claim4_counterexample :
    isOcc (step (some (4, 0)) chTrue gC4 4 0) 4 0 = true ∧
      step none chTrue gC4 2 0 = gC4 ∧
      isOcc gC4 2 0 = true ∧
      getCell gC4 2 0 = some (true, false) ∧
      getCell gC4 3 0 = some (false, false) := by decide

lemma rowScan_keeps_occ_bottom {s : Option (Nat × Nat)} {ch : Nat → Nat → Bool}
    {rq cq : Nat} :
    ∀ (cs : List Nat) (r : Nat) (g : Array2D), isOcc g rq cq = true →
      ¬ rq < g.numRows - 3 → isOcc (rowScan s ch r g cs) rq cq = true := by
  intro cs
  induction cs with
  | nil => intro r g hocc _; exact hocc
  | cons c cs ih =>
      intro r g hocc hg
      rw [rowScan_cons]
      by_cases hne : (r, c) = (rq, cq)
      · have hr : r = rq := congrArg Prod.fst hne
        have hc : c = cq := congrArg Prod.snd hne
        subst hr; subst hc
        rw [step_bottom hocc hg]
        exact ih r g hocc hg
      · refine ih r (step s ch g r c) (step_keeps_occ hocc hne) ?_
        rw [step_numRows]
        exact hg

lemma passAux_keeps_occ_bottom {s : Option (Nat × Nat)} {ch : Nat → Nat → Bool}
    {C rq cq : Nat} :
    ∀ (rs : List Nat) (g : Array2D), isOcc g rq cq = true →
      ¬ rq < g.numRows - 3 → isOcc (updatePassAux s ch C g rs) rq cq = true := by
  intro rs
  induction rs with
  | nil => intro g hocc _; exact hocc
  | cons r rs ih =>
      intro g hocc hg
      rw [updatePassAux_cons]
      refine ih _ (rowScan_keeps_occ_bottom _ _ _ hocc hg) ?_
      rw [rowScan_numRows]
      exact hg

/-- C5 (confirmed): on a grid of at least three rows (so that the `usize`
guard `row < column_len() - 3` of the source cannot underflow), a particle
in either of the bottom two rows is never moved by the update pass: it is
still occupied after the pass, and after the whole tick.  (In fact the
guard already stops movement in the bottom three rows, see claim 4.) -/
theorem claim5_theorem (s : Option (Nat × Nat)) (ch : Nat → Nat → Bool)
    (g : Array2D) (r c : Nat) (h3 : 3 ≤ g.numRows) (hr : g.numRows - 2 ≤ r)
    (hocc : isOcc g r c = true) :
    isOcc (updatePass s ch g) r c = true ∧ isOcc (tick s ch g) r c = true := by
  have hg : ¬ r < g.numRows - 3 := by omega
  have h1 : isOcc (updatePass s ch g) r c = true :=
    passAux_keeps_occ_bottom _ _ hocc hg
  refine ⟨h1, ?_⟩
  unfold tick
  rw [isOcc_clearMarks]
  exact h1

/-- Grid with one particle at `(3, 0)` — the second row from the bottom —
on a 5x5 grid. -/
def gC5 : Array2D := setCell (emptyGrid 5 5) 3 0 (true, false)

theorem claim5_witness :
    isOcc (updatePass none chTrue gC5) 3 0 = true ∧
      isOcc (tick none chTrue gC5) 3 0 = true :=
  claim5_theorem none chTrue gC5 3 0 (by decide) (by decide) (by decide)

/-! ### Claims 6, 7 and 8: the event drain -/

/-- C6 (amended): a `Resize` signal is not ignored: consuming it reaches
the `todo!()` of the `Signal::Resize` arm, i.e. the drain aborts with a
panic (whatever signals follow and whatever the emitter state), rather
than leaving the state unchanged and continuing.  The claim as frozen —
"accepted but not acted upon", with the simulation continuing — is
refuted by `claim6_counterexample`. -/
theorem claim6_theorem (w h : Nat) (rest : List Signal) (s : Option (Nat × Nat)) :
    drainEvents (Signal.Resize w h :: rest) s = DrainOutcome.panicked := rfl

/-- C6 (counterexample to the claim as stated): draining a single
`Resize` signal panics; the loop state is not `Running` with the emitter
unchanged. -/
theorem claim6_counterexample :
    tickEventOutcome [Signal.Resize 80 24] false none = SimState.Panicked ∧
      tickEventOutcome [Signal.Resize 80 24] false none ≠ SimState.Running none := by
  decide

/-- C7 (amended): the drain obtains its signals through
`event_rx.try_iter()`, which yields exactly the buffered signals and ends
silently both on an empty queue and on a disconnected producer; producer
disconnection is therefore invisible to the tick scheduler — the outcome
with a disconnected producer equals the outcome with a connected one, and
in particular an empty disconnected channel leaves the loop `Running`.
There is no implicit Quit; the claim as frozen is refuted by
`claim7_counterexample`. -/
theorem claim7_theorem (buffered : List Signal) (s : Option (Nat × Nat)) :
    tickEventOutcome buffered true s = tickEventOutcome buffered false s ∧
      tickEventOutcome [] true s = SimState.Running s :=
  ⟨rfl, rfl⟩

/-- C7 (counterexample to the claim as stated): with the producer
disconnected and nothing buffered, the simulation loop stays `Running`
instead of transitioning to `Stopped`. -/
theorem claim7_counterexample :
    tickEventOutcome [] true none = SimState.Running none ∧
      tickEventOutcome [] true none ≠ SimState.Stopped := by decide

/-- C8 (confirmed): a `Click` while no emitter is active activates it at
the clicked coordinate; a `Click` while one is active deactivates it
regardless of coordinate; a `Moved` relocates an active emitter to the
new coordinate and leaves an inactive emitter inactive. -/
theorem claim8_theorem (r c : Nat) (p : Nat × Nat) :
    drainEvents [Signal.Click r c] none = DrainOutcome.cont (some (r, c)) ∧
      drainEvents [Signal.Click r c] (some p) = DrainOutcome.cont none ∧
      drainEvents [Signal.Moved r c] (some p) = DrainOutcome.cont (some (r, c)) ∧
      drainEvents [Signal.Moved r c] none = DrainOutcome.cont none :=
  ⟨rfl, rfl, rfl, rfl⟩

/-! ### Claim 9: every grid write of the pass is in bounds -/

lemma setCellChecked_eq {g : Array2D} {r c : Nat}
    (hr : r < g.numRows) (hc : c < g.numCols) (v : Cell) :
    setCellChecked g r c v = some (setCell g r c v) := by
  unfold setCellChecked getIndex setCell
  rw [if_pos ⟨hr, hc⟩]
  rfl

lemma checkedPred_eq {c : Nat} (hc : 0 < c) : checkedPred c = some (c - 1) := by
  unfold checkedPred
  rw [if_pos hc]

/-- Every write of one decision-table evaluation is within bounds: the
checked step never fails and agrees with the unchecked one. -/
lemma stepChecked_eq (s : Option (Nat × Nat)) (ch : Nat → Nat → Bool)
    (g : Array2D) (r c : Nat) :
    stepChecked s ch g r c = some (step s ch g r c) := by
  unfold stepChecked step stepFull
  split
  · rename_i heq1
    obtain ⟨hr, hc, -⟩ := getCell_some heq1
    show (if s = some (r, c) then setCellChecked g r c (true, true) else some g) =
      some (if s = some (r, c) then setCell g r c (true, true) else g, []).1
    by_cases hs : s = some (r, c)
    · rw [if_pos hs, if_pos hs, setCellChecked_eq hr hc]
    · rw [if_neg hs, if_neg hs]
  · rename_i m heq1 heq2
    obtain ⟨hr, hc, -⟩ := getCell_some heq1
    obtain ⟨hr2, -, -⟩ := getCell_some heq2
    by_cases hguard : r < g.numRows - 3
    · rw [if_pos hguard, if_pos hguard, setCellChecked_eq hr hc,
        Option.some_bind]
      exact setCellChecked_eq (g := setCell g r c (false, true)) hr2 hc (true, true)
    · rw [if_neg hguard, if_neg hguard]
  · rename_i m1 m2 m3 m4 heq1 heq2 heq3 heq4
    obtain ⟨hr, hc, -⟩ := getCell_some heq1
    obtain ⟨hr2, hc4, -⟩ := getCell_some heq4
    by_cases hcpos : 0 < c
    · rw [if_pos hcpos] at heq3
      obtain ⟨-, hc3, -⟩ := getCell_some heq3
      by_cases hguard : r < g.numRows - 3
      · rw [if_pos hguard, if_pos hguard, setCellChecked_eq hr hc,
          Option.some_bind, checkedPred_eq hcpos, Option.some_bind]
        by_cases hch : ch r c
        · rw [if_pos hch]
          exact setCellChecked_eq (g := setCell g r c (false, true)) hr2 hc3 (true, true)
        · rw [if_neg hch]
          exact setCellChecked_eq (g := setCell g r c (false, true)) hr2 hc4 (true, true)
      · rw [if_neg hguard, if_neg hguard]
    · rw [if_neg hcpos] at heq3
      exact absurd heq3 (by simp)
  · rename_i m1 m2 m3 m4 heq1 heq2 heq3 heq4
    obtain ⟨hr, hc, -⟩ := getCell_some heq1
    obtain ⟨hr2, hc4, -⟩ := getCell_some heq4
    by_cases hguard : r < g.numRows - 3
    · rw [if_pos hguard, if_pos hguard, setCellChecked_eq hr hc,
        Option.some_bind]
      exact setCellChecked_eq (g := setCell g r c (false, true)) hr2 hc4 (true, true)
    · rw [if_neg hguard, if_neg hguard]
  · rename_i m1 m2 m3 m4 heq1 heq2 heq3 heq4
    obtain ⟨hr, hc, -⟩ := getCell_some heq1
    by_cases hcpos : 0 < c
    · rw [if_pos hcpos] at heq3
      obtain ⟨hr2, hc3, -⟩ := getCell_some heq3
      by_cases hguard : r < g.numRows - 3
      · rw [if_pos hguard, if_pos hguard, setCellChecked_eq hr hc,
          Option.some_bind, checkedPred_eq hcpos, Option.some_bind]
        exact setCellChecked_eq (g := setCell g r c (false, true)) hr2 hc3 (true, true)
      · rw [if_neg hguard, if_neg hguard]
    · rw [if_neg hcpos] at heq3
      exact absurd heq3 (by simp)
  · rfl

lemma rowScanChecked_eq (s : Option (Nat × Nat)) (ch : Nat → Nat → Bool) (r : Nat) :
    ∀ (cs : List Nat) (g : Array2D),
      rowScanChecked s ch r g cs = some (rowScan s ch r g cs) := by
  intro cs
  induction cs with
  | nil => intro g; rfl
  | cons c cs ih =>
      intro g
      show (stepChecked s ch g r c).bind
          (fun g1 => rowScanChecked s ch r g1 cs) = _
      rw [stepChecked_eq, Option.some_bind, ih, rowScan_cons]

lemma updatePassAuxChecked_eq (s : Option (Nat × Nat)) (ch : Nat → Nat → Bool)
    (C : Nat) :
    ∀ (rs : List Nat) (g : Array2D),
      updatePassAuxChecked s ch C g rs = some (updatePassAux s ch C g rs) := by
  intro rs
  induction rs with
  | nil => intro g; rfl
  | cons r rs ih =>
      intro g
      show (rowScanChecked s ch r g (List.range C)).bind
          (fun g1 => updatePassAuxChecked s ch C g1 rs) = _
      rw [rowScanChecked_eq, Option.some_bind, ih, updatePassAux_cons]

/-- C9 (confirmed): in every update pass, every grid write — including
the `row + 1`, `col - 1` and `col + 1` targets and the `col - 1` index
computation at column 0 — targets coordinates previously validated via
the bounds-checked `get` reads of the same match arm: the pass with every
write (and `usize` decrement) checked never reaches a failure path and
computes exactly the unchecked pass. -/
theorem claim9_theorem (s : Option (Nat × Nat)) (ch : Nat → Nat → Bool)
    (g : Array2D) :
    updatePassChecked s ch g = some (updatePass s ch g) := by
  unfold updatePassChecked updatePass
  exact updatePassAuxChecked_eq s ch g.numCols (List.range g.numRows) g

/-! ### Claim 10: edge columns with an occupied below neighbour -/

/-- In column 0 the below-left read is absent, so no diagonal rule can
fire: an occupied cell above an occupied cell never moves there, whatever
the below-right neighbour holds. -/
lemma step_edge_left {s : Option (Nat × Nat)} {ch : Nat → Nat → Bool}
    {g : Array2D} {r : Nat} {m m' : Bool}
    (h1 : getCell g r 0 = some (true, m))
    (h2 : getCell g (r + 1) 0 = some (true, m')) :
    step s ch g r 0 = g := by
  unfold step stepFull
  rw [h1, h2]
  cases m <;> rfl

/-- In the rightmost column the below-right read is absent, so no
diagonal rule can fire either. -/
lemma step_edge_right {s : Option (Nat × Nat)} {ch : Nat → Nat → Bool}
    {g : Array2D} {r c : Nat} {m m' : Bool} (hC : c + 1 = g.numCols)
    (h1 : getCell g r c = some (true, m))
    (h2 : getCell g (r + 1) c = some (true, m')) :
    step s ch g r c = g := by
  have hright : getCell g (r + 1) (c + 1) = none :=
    getCell_none_col (by omega)
  unfold step stepFull
  rw [h1, h2, hright]
  by_cases h0 : 0 < c
  · rw [if_pos h0]
    rcases hl : getCell g (r + 1) (c - 1) with - | ⟨lb, lm⟩
    · cases m <;> rfl
    · cases m <;> cases lb <;> rfl
  · rw [if_neg h0]
    cases m <;> rfl

/-- C10 (confirmed): an occupied cell in column 0 whose directly-below
neighbour is occupied is never moved by the decision table, even when its
below-right neighbour is empty — the absent below-left read keeps every
diagonal rule from firing; symmetrically for the rightmost column. -/
theorem claim10_theorem (s : Option (Nat × Nat)) (ch : Nat → Nat → Bool)
    (g : Array2D) :
    (∀ r m m', getCell g r 0 = some (true, m) →
        getCell g (r + 1) 0 = some (true, m') → step s ch g r 0 = g) ∧
      (∀ r c m m', c + 1 = g.numCols → getCell g r c = some (true, m) →
        getCell g (r + 1) c = some (true, m') → step s ch g r c = g) :=
  ⟨fun _ _ _ h1 h2 => step_edge_left h1 h2,
    fun _ _ _ _ hC h1 h2 => step_edge_right hC h1 h2⟩

/-- Grid on 5 rows and 3 columns with particles at `(1, 0)`, `(2, 0)`,
`(1, 2)` and `(2, 2)`; cell `(2, 1)` — the below-right neighbour of
`(1, 0)` and the below-left neighbour of `(1, 2)` — is empty. -/
def gC10 : Array2D :=
  setCell (setCell (setCell (setCell (emptyGrid 5 3) 1 0 (true, false))
    2 0 (true, false)) 1 2 (true, false)) 2 2 (true, false)

theorem claim10_witness :
    step none chTrue gC10 1 0 = gC10 ∧ step none chTrue gC10 1 2 = gC10 :=
  ⟨(claim10_theorem none chTrue gC10).1 1 false false (by decide) (by decide),
    (claim10_theorem none chTrue gC10).2 1 2 false false (by decide) (by decide)
      (by decide)⟩

end FallingSand
